import Mathlib

/-
Verification development for the locallm client core.

Part 1 embeds the streaming decoder of `ApiService.generateResponse`
(frontend/src/services/api.js, abort-aware variant): the carry-over
buffer, the split on newline, the per-line frame handling and the final
flush.  Strings are modelled as `List Char` (fragmenting a JS string is
fragmenting its character sequence; `TextDecoder` with `stream: true`
makes byte-level fragmentation of valid UTF-8 equivalent to text-level
fragmentation, so chunks are modelled as text fragments).

`JSON.parse` is modelled by `parseFlatObject`, a parser for the frame
grammar actually used by the protocol: a single flat JSON object whose
values are strings, booleans, integers or null, surrounded by optional
JSON whitespace.  Inputs outside this grammar are rejected (parse
error), exactly as a malformed frame is in the source.
-/

/-- Model of a JSON value as produced by `JSON.parse` on a protocol frame
field: a string, a boolean, an integer or null. -/
inductive JsonVal where
  | str (s : List Char)
  | bool (b : Bool)
  | num (n : Int)
  | null
deriving DecidableEq, Repr

/-- Opening brace character of a JSON object. -/
def braceOpen : Char := '\x7b'

/-- Closing brace character of a JSON object. -/
def braceClose : Char := '\x7d'

/-- JSON insignificant whitespace (the four characters `JSON.parse` skips). -/
def isJsonWs (c : Char) : Bool :=
  c == ' ' || c == '\t' || c == '\n' || c == '\r'

/-- Drop leading JSON whitespace. -/
def skipJsonWs (s : List Char) : List Char := s.dropWhile isJsonWs

/-- Backslash escapes accepted inside a JSON string literal. -/
def unescapeChar (c : Char) : Option Char :=
  if c = '"' then some '"'
  else if c = '\\' then some '\\'
  else if c = '/' then some '/'
  else if c = 'n' then some '\n'
  else if c = 't' then some '\t'
  else if c = 'r' then some '\r'
  else if c = 'b' then some '\x08'
  else if c = 'f' then some '\x0c'
  else none

/-- Parse the body of a JSON string literal after its opening quote,
returning the decoded characters and the input following the closing
quote. -/
def parseStringBody : List Char → Option (List Char × List Char)
  | [] => none
  | c :: cs =>
    if c = '"' then some ([], cs)
    else if c = '\\' then
      match cs with
      | [] => none
      | e :: cs2 =>
        match unescapeChar e, parseStringBody cs2 with
        | some ec, some p => some (ec :: p.1, p.2)
        | _, _ => none
    else
      match parseStringBody cs with
      | some p => some (c :: p.1, p.2)
      | none => none

/-- Parse a nonempty run of decimal digits into a natural number. -/
def parseDigits (s : List Char) : Option (Nat × List Char) :=
  let ds := s.takeWhile Char.isDigit
  if ds.isEmpty then none
  else some (ds.foldl (fun a c => a * 10 + (c.toNat - '0'.toNat)) 0,
             s.dropWhile Char.isDigit)

/-- Parse one JSON scalar value (string, true, false, null or integer). -/
def parseJsonValue (s : List Char) : Option (JsonVal × List Char) :=
  match s with
  | '"' :: rest => (parseStringBody rest).map (fun p => (JsonVal.str p.1, p.2))
  | 't' :: 'r' :: 'u' :: 'e' :: rest => some (JsonVal.bool true, rest)
  | 'f' :: 'a' :: 'l' :: 's' :: 'e' :: rest => some (JsonVal.bool false, rest)
  | 'n' :: 'u' :: 'l' :: 'l' :: rest => some (JsonVal.null, rest)
  | '-' :: rest => (parseDigits rest).map (fun p => (JsonVal.num (-(p.1 : Int)), p.2))
  | _ =>
    match parseDigits s with
    | some p => some (JsonVal.num (p.1 : Int), p.2)
    | none => none

/-- Parse one `"key": value` pair, skipping surrounding JSON whitespace. -/
def parsePair (s : List Char) : Option ((List Char × JsonVal) × List Char) :=
  match skipJsonWs s with
  | [] => none
  | c :: rest =>
    if c = '"' then
      match parseStringBody rest with
      | none => none
      | some kp =>
        match skipJsonWs kp.2 with
        | ':' :: rest3 =>
          match parseJsonValue (skipJsonWs rest3) with
          | none => none
          | some vp => some ((kp.1, vp.1), vp.2)
        | _ => none
    else none

/-- Parse a comma-separated sequence of pairs; the fuel bounds recursion
depth and is instantiated with the input length, which the pair content
always exceeds per step. -/
def parsePairsAux : Nat → List Char → Option (List (List Char × JsonVal) × List Char)
  | 0, _ => none
  | Nat.succ fuel, s =>
    match parsePair s with
    | none => none
    | some kvp =>
      match skipJsonWs kvp.2 with
      | ',' :: rest2 =>
        match parsePairsAux fuel rest2 with
        | none => none
        | some tail2 => some (kvp.1 :: tail2.1, tail2.2)
      | rest2 => some ([kvp.1], rest2)

/-- Model of `JSON.parse` on the protocol frame grammar: a whole input
that is one flat JSON object (with optional surrounding whitespace)
yields its key/value list; anything else is a parse error. -/
def parseFlatObject (s : List Char) : Option (List (List Char × JsonVal)) :=
  match skipJsonWs s with
  | [] => none
  | c :: rest =>
    if c = braceOpen then
      match skipJsonWs rest with
      | [] => none
      | c2 :: rest2 =>
        if c2 = braceClose then
          if (skipJsonWs rest2).isEmpty then some [] else none
        else
          match parsePairsAux (rest.length + 1) rest with
          | none => none
          | some body =>
            match skipJsonWs body.2 with
            | [] => none
            | c3 :: rest4 =>
              if c3 = braceClose then
                if (skipJsonWs rest4).isEmpty then some body.1 else none
              else none
    else none

/-- Property access `obj.key` on a parsed object: the last binding of a
key wins, as in `JSON.parse`; an absent key is `none` (undefined). -/
def getField (o : List (List Char × JsonVal)) (k : List Char) : Option JsonVal :=
  o.foldl (fun acc kv => if kv.1 = k then some kv.2 else acc) none

/-- JavaScript truthiness of a frame field value. -/
def jsTruthy : JsonVal → Bool
  | JsonVal.str s => !s.isEmpty
  | JsonVal.bool b => b
  | JsonVal.num n => n != 0
  | JsonVal.null => false

/-- Truthiness of `obj.key`, with an absent field (undefined) falsy. -/
def fieldTruthy (o : List (List Char × JsonVal)) (k : List Char) : Bool :=
  match getField o k with
  | some v => jsTruthy v
  | none => false

/-- Key of the `error` field of a frame. -/
def errorKey : List Char := "error".toList

/-- Key of the `content` field of a frame. -/
def contentKey : List Char := "content".toList

/-- Key of the `done` field of a frame. -/
def doneKey : List Char := "done".toList

/-- The significant line marker `data: ` (six characters). -/
def dataMarker : List Char := "data: ".toList

/-- What `if (data.content) onChunk(data.content)` passes on: the content
value when it is present and truthy, nothing otherwise. -/
def contentEmission (o : List (List Char × JsonVal)) : List JsonVal :=
  match getField o contentKey with
  | some v => if jsTruthy v then [v] else []
  | none => []

/-- The per-line loop body of `generateResponse`: lines without the
`data: ` marker are skipped; a marked line is parsed with the marker
sliced off; a parse failure is caught and skipped; a truthy `error`
field raises `new Error(data.error)`, which the enclosing
`catch (parseError)` of the same line swallows, so the line emits
nothing and decoding continues; otherwise a truthy `content` is emitted
and a truthy `done` returns from the whole decoder (second component
`true`). -/
def processLines : List (List Char) → List JsonVal × Bool
  | [] => ([], false)
  | l :: ls =>
    if dataMarker.isPrefixOf l then
      match parseFlatObject (l.drop 6) with
      | none => processLines ls
      | some o =>
        if fieldTruthy o errorKey then processLines ls
        else
          let em := contentEmission o
          if fieldTruthy o doneKey then (em, true)
          else
            let r := processLines ls
            (em ++ r.1, r.2)
    else processLines ls

/-- Whitespace class of the regular expression escape `\s` (ASCII part),
used by the flush `buffer.replace(/^data:\s*/, '')`. -/
def isJsSpace (c : Char) : Bool :=
  c == ' ' || c == '\t' || c == '\n' || c == '\r' || c == '\x0b' || c == '\x0c'

/-- The bare marker `data:` (five characters) stripped by the flush. -/
def dataColon : List Char := "data:".toList

/-- Model of `buffer.replace(/^data:\s*/, '')`: drop a leading `data:`
and the whitespace after it; leave a non-matching buffer unchanged. -/
def stripDataColon (s : List Char) : List Char :=
  if dataColon.isPrefixOf s then (s.drop 5).dropWhile isJsSpace else s

/-- The final flush of `generateResponse`: an empty buffer is falsy and
skipped; otherwise the buffer (with any `data:` marker stripped) is
parsed, a parse failure is ignored, and only a truthy `content` field is
emitted — `error` and `done` play no role here. -/
def flushCarry (buf : List Char) : List JsonVal :=
  if buf.isEmpty then []
  else
    match parseFlatObject (stripDataColon buf) with
    | some o => contentEmission o
    | none => []

/-- One step of the carry-over buffer: a newline closes the current line,
any other character extends it.  `buffer.split('\n')` followed by
`buffer = lines.pop()` computes exactly this left fold. -/
def feedChar (st : List (List Char) × List Char) (c : Char) :
    List (List Char) × List Char :=
  if c = '\n' then (st.1 ++ [st.2], []) else (st.1, st.2 ++ [c])

/-- Complete lines of a text and the trailing incomplete fragment, as
computed by split-on-newline with the last fragment retained. -/
def splitLines (s : List Char) : List (List Char) × List Char :=
  s.foldl feedChar ([], [])

/-- The chunk loop of `generateResponse`: append the chunk to the
carry-over buffer, split on newline retaining the last fragment, process
the complete lines, stop on a `done` return, and flush the buffer when
the producer is exhausted.  Abort signals are absent from this model (no
cancellation during decoding). -/
def generateResponseLoop (buf : List Char) : List (List Char) → List JsonVal
  | [] => flushCarry buf
  | c :: cs =>
    let p := splitLines (buf ++ c)
    let r := processLines p.1
    if r.2 then r.1 else r.1 ++ generateResponseLoop p.2 cs

/-- The decoder of `ApiService.generateResponse` applied to a chunked
response body: the sequence of values passed to `onChunk`. -/
def generateResponse (chunks : List (List Char)) : List JsonVal :=
  generateResponseLoop [] chunks

/-- One-shot decoding of a whole body: all complete lines processed in
order, then the trailing fragment flushed unless a `done` stopped the
loop. -/
def decodeWhole (body : List Char) : List JsonVal :=
  let p := splitLines body
  let r := processLines p.1
  if r.2 then r.1 else r.1 ++ flushCarry p.2


/-
Part 2 embeds the conversation state machine of the `useChat` hook
(frontend/src/hooks/useChat.js, abort-aware variant): the message list,
session bookkeeping, the abort-controller reference, and the operations
`stopGeneration`, `sendMessage`, `loadSessions`, `switchToSession` and
`deleteSession`.  React state setters become record updates on an
explicit state; the external api collaborator's results are passed in
as parameters (`none` models a thrown request, after which the catch
blocks of the source leave every piece of local state untouched).
-/

/-- Message role as stored by the hook: the strings `user` and `ai`. -/
inductive Role where
  | user
  | ai
deriving DecidableEq, Repr

/-- One entry of the `messages` array of the hook. -/
structure Message where
  type : Role
  content : String
  timestamp : Nat
deriving DecidableEq, Repr

/-- One session object as held in the `sessions` list. -/
structure Session where
  id : Nat
  model : String
deriving DecidableEq, Repr

/-- One persisted message record returned by `getSessionMessages`. -/
structure DbMessage where
  role : String
  content : String
  timestamp : Nat
deriving DecidableEq, Repr

/-- The reactive state of one `useChat` instance: `abortController`
is true exactly when `abortControllerRef.current` holds a live
controller. -/
structure ChatState where
  messages : List Message
  sessions : List Session
  currentSession : Option Session
  isGenerating : Bool
  selectedModel : String
  abortController : Bool
deriving DecidableEq, Repr

/-- Whitespace recognised by the JavaScript `trim` (ASCII part). -/
def isJsSpaceChar (c : Char) : Bool :=
  c == ' ' || c == '\t' || c == '\n' || c == '\r' || c == '\x0b' || c == '\x0c'

/-- Model of the JavaScript `String.prototype.trim`. -/
def jsTrim (s : String) : String :=
  String.mk (((s.data.dropWhile isJsSpaceChar).reverse.dropWhile isJsSpaceChar).reverse)

/-- The literal annotation appended by `stopGeneration` to a non-empty
trailing assistant message. -/
def stopMarker : String := "\n\n[Generation stopped by user]"

/-- The message-list update of `stopGeneration`: when the last message
exists and is an assistant message, it is removed if its content is
empty or trims to empty, and otherwise gets the stop marker appended;
any other list is left unchanged. -/
def stopReconcile (msgs : List Message) : List Message :=
  match msgs.getLast? with
  | none => msgs
  | some m =>
    if m.type = Role.ai then
      if m.content = "" ∨ jsTrim m.content = "" then msgs.dropLast
      else msgs.dropLast ++ [{ m with content := m.content ++ stopMarker }]
    else msgs

/-- The `stopGeneration` callback: with no installed controller it does
nothing; otherwise it aborts and clears the controller, clears
`isGenerating`, and reconciles the trailing message. -/
def stopGeneration (s : ChatState) : ChatState :=
  if s.abortController then
    { s with abortController := false
             isGenerating := false
             messages := stopReconcile s.messages }
  else s

/-- The `loadSessions` callback with the api result as a parameter:
a failed `getSessions` call (`none`) empties the session list; a
successful one installs it and, when the current session is absent from
it, clears the current session and the message list. -/
def loadSessions (apiSessions : Option (List Session)) (s : ChatState) : ChatState :=
  match apiSessions with
  | none => { s with sessions := [] }
  | some sessionList =>
    let s1 := { s with sessions := sessionList }
    match s.currentSession with
    | some cur =>
      if (sessionList.find? (fun t => t.id == cur.id)).isNone then
        { s1 with currentSession := none, messages := [] }
      else s1
    | none => s1

/-- The persistence collaborator behind `getSession` and
`getSessionMessages`, as one store mapping a session to its persisted
messages; a session id absent from the store makes both calls fail. -/
structure SessionStore where
  entries : List (Session × List DbMessage)
deriving DecidableEq, Repr

/-- Combined `getSession` plus `getSessionMessages` lookup. -/
def getSessionApi (store : SessionStore) (sessionId : Nat) :
    Option (Session × List DbMessage) :=
  store.entries.find? (fun e => e.1.id == sessionId)

/-- Conversion of a persisted message to the hook's format, as in
`switchToSession`: any role other than `user` maps to `ai`. -/
def formatMessage (m : DbMessage) : Message :=
  { type := if m.role = "user" then Role.user else Role.ai
    content := m.content
    timestamp := m.timestamp }

/-- The `switchToSession` callback: both api calls precede every state
update, so when the lookup fails the catch block rethrows (second
component `false`) with the state untouched; on success the current
session, the selected model and the message list are replaced
wholesale.  The abort controller is not consulted on either path. -/
def switchToSession (store : SessionStore) (s : ChatState) (sessionId : Nat) :
    ChatState × Bool :=
  match getSessionApi store sessionId with
  | none => (s, false)
  | some e =>
    ({ s with currentSession := some e.1
              selectedModel := e.1.model
              messages := (e.2.map formatMessage) }, true)

/-- The `deleteSession` callback after a successful api delete: refresh
the session list, then, when the deleted id is the current session (the
closure value from before the refresh), clear the current session, the
messages and the selected model.  The abort controller is not consulted. -/
def deleteSession (apiSessions : Option (List Session)) (s : ChatState)
    (sessionId : Nat) : ChatState :=
  let s1 := loadSessions apiSessions s
  match s.currentSession with
  | some cur =>
    if cur.id == sessionId then
      { s1 with currentSession := none, messages := [], selectedModel := "" }
    else s1
  | none => s1

/-- The `sendMessage` callback up to and including the installation of
the new abort controller (the synchronous prefix before the awaited
`generateResponse`; the asynchronous completion is modelled separately
by `runGenEvent`).  Guard one returns unchanged when no model is
selected or the prompt trims to empty; guard two, reached while a
generation is active, invokes `stopGeneration` and returns without
issuing the new request.  Otherwise a missing current session is
created via the api (`apiCreated`; `none` is a thrown create, which
aborts the send with no state change), and then the trimmed user
message and the empty assistant placeholder are appended,
`isGenerating` is set and a fresh controller installed. -/
def sendMessage (s : ChatState) (content : String) (apiCreated : Option Session)
    (apiSessions : Option (List Session)) (ts : Nat) : ChatState :=
  if s.selectedModel = "" ∨ jsTrim content = "" then s
  else if s.isGenerating then stopGeneration s
  else
    let afterSession : Option ChatState :=
      match s.currentSession with
      | some _ => some s
      | none =>
        match apiCreated with
        | none => none
        | some newSession =>
          let s1 := loadSessions apiSessions s
          some { s1 with currentSession := some newSession
                         messages := []
                         selectedModel := s.selectedModel }
    match afterSession with
    | none => s
    | some s2 =>
      { s2 with messages := s2.messages ++
                  [{ type := Role.user, content := jsTrim content, timestamp := ts },
                   { type := Role.ai, content := "", timestamp := ts }]
                isGenerating := true
                abortController := true }

/-- Phase of the in-flight `sendMessage` body: inside the awaited
`generateResponse`, between its normal return and the completion of the
awaited `loadSessions` (the `finally` still pending), or after the
`finally` has run. -/
inductive GenPhase where
  | streaming
  | loadingSessions
  | settled
deriving DecidableEq, Repr

/-- A send in flight: the chat state, the phase, and the closure state
of `sendMessage` (the `aiResponse` accumulator and the timestamp of the
captured `aiMessage` object that `onChunk` spreads). -/
structure LiveState where
  chat : ChatState
  phase : GenPhase
  aiResponse : String
  aiTimestamp : Nat
deriving DecidableEq, Repr

/-- Events that can reach the state while a send is in flight: a content
delta delivered to `onChunk`, the normal return of `generateResponse`,
the resolution of the awaited `loadSessions` followed by the `finally`
block, and a user click on stop. -/
inductive GenEvent where
  | chunk (text : String)
  | doneEvent
  | loadDone (apiSessions : Option (List Session))
  | stop
deriving DecidableEq, Repr

/-- Assignment `newMessages[newMessages.length - 1] = m` on a non-empty
array. -/
def setLast (msgs : List Message) (m : Message) : List Message :=
  if msgs.isEmpty then msgs else msgs.dropLast ++ [m]

/-- One scheduler step.  `onChunk` extends the accumulator and overwrites
the last message with a copy of the captured placeholder carrying the
accumulated content; the normal return of `generateResponse` merely
moves to the `loadingSessions` phase (no state update of its own); the
`finally` step applies `loadSessions`, clears `isGenerating` and nulls
the controller; `stop` runs `stopGeneration` on the chat state in any
phase, since the stop button only requires an installed controller. -/
def runGenEvent (st : LiveState) (e : GenEvent) : LiveState :=
  match e with
  | GenEvent.stop => { st with chat := stopGeneration st.chat }
  | GenEvent.chunk text =>
    match st.phase with
    | GenPhase.streaming =>
      let newResponse := st.aiResponse ++ text
      let updated : Message :=
        { type := Role.ai, content := newResponse, timestamp := st.aiTimestamp }
      { st with aiResponse := newResponse
                chat := { st.chat with messages := setLast st.chat.messages updated } }
    | _ => st
  | GenEvent.doneEvent =>
    match st.phase with
    | GenPhase.streaming => { st with phase := GenPhase.loadingSessions }
    | _ => st
  | GenEvent.loadDone apiSessions =>
    match st.phase with
    | GenPhase.loadingSessions =>
      { st with phase := GenPhase.settled
                chat := { loadSessions apiSessions st.chat with
                  isGenerating := false
                  abortController := false } }
    | _ => st

/-- Run a sequence of scheduler steps. -/
def runGenEvents (st : LiveState) (es : List GenEvent) : LiveState :=
  es.foldl runGenEvent st


/-- Concrete user message used by the witnesses and counterexamples. -/
def userHi : Message := { type := Role.user, content := "hi", timestamp := 1 }

/-- Concrete session used by the witnesses and counterexamples. -/
def llamaSession : Session := { id := 1, model := "llama3" }

/-- Concrete trailing assistant message with whitespace-only content. -/
def aiSpace : Message := { type := Role.ai, content := " ", timestamp := 2 }

/-- Concrete trailing assistant message with partially streamed content. -/
def aiPartial : Message := { type := Role.ai, content := "par", timestamp := 2 }

/-- Concrete empty assistant placeholder. -/
def aiEmpty : Message := { type := Role.ai, content := "", timestamp := 2 }

/-- A state with a generation in flight over the given messages. -/
def genActiveState (msgs : List Message) : ChatState :=
  { messages := msgs
    sessions := [llamaSession]
    currentSession := some llamaSession
    isGenerating := true
    selectedModel := "llama3"
    abortController := true }

/-- A quiescent state: no generation active, no controller installed. -/
def idleState : ChatState :=
  { messages := [userHi]
    sessions := [llamaSession]
    currentSession := some llamaSession
    isGenerating := false
    selectedModel := "llama3"
    abortController := false }

/-- The in-flight send of the C5 scenario: placeholder appended, still
streaming, nothing accumulated yet. -/
def liveStart : LiveState :=
  { chat := genActiveState [userHi, aiEmpty]
    phase := GenPhase.streaming
    aiResponse := ""
    aiTimestamp := 2 }


theorem foldl_feedChar_frame (t : List Char) (pre ls : List (List Char)) (cur : List Char) :
    List.foldl feedChar (pre ++ ls, cur) t =
      (pre ++ (List.foldl feedChar (ls, cur) t).1,
       (List.foldl feedChar (ls, cur) t).2) := by
  induction t generalizing ls cur with
  | nil => simp
  | cons c t ih =>
    by_cases h : c = '\n'
    · simp only [List.foldl_cons, feedChar, h, if_pos, List.append_assoc]
      exact ih (ls ++ [cur]) []
    · simp only [List.foldl_cons, feedChar, h, if_neg, ite_false]
      exact ih ls (cur ++ [c])

theorem foldl_feedChar_no_newline (t : List Char) (h : '\n' ∉ t)
    (ls : List (List Char)) (cur : List Char) :
    List.foldl feedChar (ls, cur) t = (ls, cur ++ t) := by
  induction t generalizing cur with
  | nil => simp
  | cons c t ih =>
    have hc : ¬ c = '\n' := fun hh => h (hh ▸ List.mem_cons_self c t)
    have ht : '\n' ∉ t := fun hh => h (List.mem_cons_of_mem c hh)
    simp only [List.foldl_cons, feedChar, hc, ite_false]
    rw [ih ht (cur ++ [c])]
    simp

theorem foldl_feedChar_snd_no_newline (t : List Char) (ls : List (List Char))
    (cur : List Char) (h : '\n' ∉ cur) :
    '\n' ∉ (List.foldl feedChar (ls, cur) t).2 := by
  induction t generalizing ls cur with
  | nil => simpa
  | cons c t ih =>
    by_cases hc : c = '\n'
    · simp only [List.foldl_cons, feedChar, hc, ite_true]
      exact ih (ls ++ [cur]) [] (by simp)
    · simp only [List.foldl_cons, feedChar, hc, ite_false]
      refine ih ls (cur ++ [c]) ?_
      simp only [List.mem_append, List.mem_singleton]
      rintro (hin | rfl)
      · exact h hin
      · exact hc rfl

theorem processLines_append (xs ys : List (List Char)) :
    processLines (xs ++ ys) =
      (if (processLines xs).2 then processLines xs
       else ((processLines xs).1 ++ (processLines ys).1, (processLines ys).2)) := by
  induction xs with
  | nil => simp [processLines]
  | cons l ls ih =>
    simp only [List.cons_append, processLines]
    by_cases hp : dataMarker.isPrefixOf l
    · simp only [hp, ite_true]
      cases hparse : parseFlatObject (l.drop 6) with
      | none => exact ih
      | some o =>
        simp only
        by_cases herr : fieldTruthy o errorKey
        · simp only [herr, ite_true]
          exact ih
        · simp only [herr, ite_false]
          by_cases hdone : fieldTruthy o doneKey
          · simp [hdone]
          · simp only [hdone, ite_false, ih]
            by_cases hstop : (processLines ls).2
            · simp [hstop, ih]
            · simp [hstop, ih, List.append_assoc]
    · simp only [hp, ite_false]
      exact ih

theorem splitLines_no_newline (buf : List Char) (h : '\n' ∉ buf) :
    splitLines buf = ([], buf) := by
  simpa [splitLines] using foldl_feedChar_no_newline buf h [] []

theorem splitLines_snd_no_newline (s : List Char) : '\n' ∉ (splitLines s).2 :=
  foldl_feedChar_snd_no_newline s [] [] (by simp)


theorem splitLines_left_nil (r t : List Char) (h : '\n' ∉ r) :
    splitLines (r ++ t) = List.foldl feedChar ([], r) t := by
  simp only [splitLines, List.foldl_append]
  rw [foldl_feedChar_no_newline r h [] []]
  simp

theorem splitLines_append (d t : List Char) :
    splitLines (d ++ t) =
      ((splitLines d).1 ++ (splitLines ((splitLines d).2 ++ t)).1,
       (splitLines ((splitLines d).2 ++ t)).2) := by
  have hr : '\n' ∉ (splitLines d).2 := splitLines_snd_no_newline d
  have h1 : splitLines ((splitLines d).2 ++ t) =
      List.foldl feedChar ([], (splitLines d).2) t :=
    splitLines_left_nil (splitLines d).2 t hr
  have h2 : splitLines (d ++ t) =
      List.foldl feedChar ((splitLines d).1, (splitLines d).2) t := by
    simp only [splitLines, List.foldl_append]
  rw [h2, h1]
  have h3 := foldl_feedChar_frame t (splitLines d).1 [] (splitLines d).2
  simpa using h3

theorem decodeWhole_step (d t : List Char) :
    decodeWhole (d ++ t) =
      (if (processLines (splitLines d).1).2 then (processLines (splitLines d).1).1
       else (processLines (splitLines d).1).1 ++ decodeWhole ((splitLines d).2 ++ t)) := by
  simp only [decodeWhole, splitLines_append d t, processLines_append]
  by_cases h1 : (processLines (splitLines d).1).2
  · simp [h1]
  · by_cases h2 : (processLines (splitLines ((splitLines d).2 ++ t)).1).2
    · simp [h1, h2]
    · simp [h1, h2, List.append_assoc]

theorem generateResponseLoop_eq_decodeWhole (cs : List (List Char)) :
    ∀ buf : List Char, '\n' ∉ buf →
    generateResponseLoop buf cs = decodeWhole (buf ++ cs.flatten) := by
  induction cs with
  | nil =>
    intro buf h
    simp [generateResponseLoop, decodeWhole, splitLines_no_newline buf h, processLines]
  | cons c cs ih =>
    intro buf h
    have hr := splitLines_snd_no_newline (buf ++ c)
    have hjoin : buf ++ (c :: cs).flatten = (buf ++ c) ++ cs.flatten := by
      simp [List.append_assoc]
    rw [hjoin, decodeWhole_step, ← ih _ hr]
    simp only [generateResponseLoop]

/-- C2: for every response body and every fragmentation of its text into
chunks, the decoding loop of `generateResponse` (carry-over buffer,
split on newline, retention of the last incomplete fragment, final
flush) passes the same sequence of values to `onChunk` as decoding the
body delivered in one chunk; the final concatenated content is therefore
also the same.  The statement is unconditional, hence it covers in
particular every well-formed body. -/
theorem generateResponse_chunk_invariance (chunks : List (List Char)) :
    generateResponse chunks = generateResponse [chunks.flatten] := by
  have h1 := generateResponseLoop_eq_decodeWhole chunks [] (by simp)
  have h2 := generateResponseLoop_eq_decodeWhole [chunks.flatten] [] (by simp)
  simp only [generateResponse]
  rw [h1, h2]
  simp

/-- C1, behaviour of the code at the failing input: on a stream whose
first frame carries an `error` field, decoding does not stop and no
error reaches the caller.  The `throw new Error(data.error)` in
`generateResponse` sits inside the `try` whose `catch (parseError)`
only logs, so the error line is skipped like a malformed frame, the
following content line still emits, and the decoder returns normally. -/
theorem generateResponse_error_frame_swallowed :
    generateResponse
      [("data: \x7b\"error\": \"boom\"\x7d\ndata: \x7b\"content\": \"hi\"\x7d\n").toList] =
      [JsonVal.str "hi".toList] := by
  decide

/-- C3 counterexample: a `data: ` line whose `content` field is present
with value the empty string emits no event at all, because
`if (data.content)` is falsy on the empty string; the claim requires a
Content event carrying the empty string. -/
theorem generateResponse_empty_content_not_emitted :
    generateResponse [("data: \x7b\"content\": \"\"\x7d\n").toList] = [] := by
  decide

/-- C3 amended: for every line built from the `data: ` marker and a text
that parses to a record with no truthy `error` field and a string
`content` field, the decoder emits that string exactly when it is
non-empty (JavaScript truthiness), and emits nothing when it is the
empty string. -/
theorem processLines_content_emission (j : List Char) (o : List (List Char × JsonVal))
    (s : List Char)
    (hp : parseFlatObject j = some o)
    (he : fieldTruthy o errorKey = false)
    (hc : getField o contentKey = some (JsonVal.str s)) :
    (processLines [dataMarker ++ j]).1 =
      if s.isEmpty then [] else [JsonVal.str s] := by
  have hpre : dataMarker.isPrefixOf (dataMarker ++ j) = true := by
    rw [List.isPrefixOf_iff_prefix]
    exact List.prefix_append _ _
  have hlen : dataMarker.length = 6 := by decide
  have hdrop : (dataMarker ++ j).drop 6 = j := by
    rw [← hlen]
    exact List.drop_left dataMarker j
  simp only [processLines, hpre, ite_true, hdrop, hp, he]
  by_cases hd : fieldTruthy o doneKey
  · simp only [hd, ite_true, ite_false, Bool.false_eq_true, contentEmission, hc, jsTruthy]
    by_cases hs : s.isEmpty <;> simp [hs]
  · simp only [hd, ite_false, Bool.false_eq_true, processLines, contentEmission, hc, jsTruthy]
    by_cases hs : s.isEmpty <;> simp [hs]

/-- Witness for the amended C3 theorem at a concrete non-empty content
frame. -/
theorem processLines_content_emission_witness :
    (processLines [dataMarker ++ ("\x7b\"content\": \"hi\"\x7d").toList]).1 =
      [JsonVal.str "hi".toList] := by
  have h := processLines_content_emission ("\x7b\"content\": \"hi\"\x7d").toList
    [("content".toList, JsonVal.str "hi".toList)] "hi".toList
    (by decide) (by decide) (by decide)
  simpa using h
theorem stopReconcile_concat (pre : List Message) (m : Message)
    (hai : m.type = Role.ai) :
    stopReconcile (pre ++ [m]) =
      (if jsTrim m.content = "" then pre
       else pre ++ [{ m with content := m.content ++ stopMarker }]) := by
  have hlast : (pre ++ [m]).getLast? = some m := by simp
  have hdrop : (pre ++ [m]).dropLast = pre := by simp
  simp only [stopReconcile, hlast, hai, ite_true, hdrop]
  by_cases h : jsTrim m.content = ""
  · simp [h]
  · have h2 : ¬ m.content = "" := fun he => h (by rw [he]; rfl)
    simp [h, h2]

/-- C4 amended: with a controller installed and the trailing message an
assistant message, `stopGeneration` removes that message when its
content is empty or whitespace-only (trims to empty), and otherwise
appends the stop marker to it exactly once; the messages before it are
unchanged in both cases. -/
theorem stopGeneration_trailing_reconcile (s : ChatState) (pre : List Message)
    (m : Message) (hc : s.abortController = true) (hm : s.messages = pre ++ [m])
    (hai : m.type = Role.ai) :
    (jsTrim m.content = "" → (stopGeneration s).messages = pre)
    ∧ (jsTrim m.content ≠ "" →
        (stopGeneration s).messages =
          pre ++ [{ m with content := m.content ++ stopMarker }]) := by
  constructor <;> intro h <;>
    simp [stopGeneration, hc, hm, stopReconcile_concat pre m hai, h]

/-- Witness for the amended C4 theorem: cancelling over the partially
streamed content `par` appends the stop marker once. -/
theorem stopGeneration_trailing_reconcile_witness :
    (stopGeneration (genActiveState [userHi, aiPartial])).messages =
      [userHi] ++ [{ aiPartial with content := aiPartial.content ++ stopMarker }] :=
  (stopGeneration_trailing_reconcile (genActiveState [userHi, aiPartial])
    [userHi] aiPartial rfl rfl rfl).2 (by decide)

/-- C4 counterexample: the trailing assistant content is a single space,
which is not the empty string, so the claim requires the stop marker to
be appended; the code removes the message instead, because its test is
content trims to empty rather than content is empty. -/
theorem stopGeneration_whitespace_removed_counterexample :
    aiSpace.content ≠ ""
    ∧ (stopGeneration (genActiveState [userHi, aiSpace])).messages = [userHi] := by
  constructor
  · decide
  · decide

/-- C9: with a controller installed, a trailing assistant message whose
content is whitespace-only (trims to empty) is removed entirely by
`stopGeneration`, leaving no assistant turn. -/
theorem stopGeneration_removes_whitespace_only (s : ChatState) (pre : List Message)
    (m : Message) (hc : s.abortController = true) (hm : s.messages = pre ++ [m])
    (hai : m.type = Role.ai) (hws : jsTrim m.content = "") :
    (stopGeneration s).messages = pre := by
  simp [stopGeneration, hc, hm, stopReconcile_concat pre m hai, hws]

/-- Witness for the C9 theorem at the whitespace-only content. -/
theorem stopGeneration_removes_whitespace_only_witness :
    (stopGeneration (genActiveState [userHi, aiSpace])).messages = [userHi] :=
  stopGeneration_removes_whitespace_only (genActiveState [userHi, aiSpace])
    [userHi] aiSpace rfl rfl rfl (by decide)

/-- C5 counterexample: the stream completes naturally (all content
delivered, `generateResponse` returned), the user clicks stop during
the awaited `loadSessions` — before the `finally` has nulled the
controller — and the stop reconciliation is applied on top of the
completed content: the final assistant message carries both the fully
streamed text and the stop marker, which the claim says can never
happen. -/
theorem stop_after_done_mixes_reconciliation :
    (runGenEvents liveStart
      [GenEvent.chunk "Hello", GenEvent.doneEvent, GenEvent.stop,
       GenEvent.loadDone (some [llamaSession])]).chat.messages =
      [userHi, { type := Role.ai, content := "Hello" ++ stopMarker, timestamp := 2 }] := by
  decide

/-- C5 amended: `stopGeneration` is idempotent, and once the controller
has been consumed (nulled) it is a complete no-op, so a second call
after either termination path changes nothing; natural completion,
however, consumes the controller only in the `finally` step, so a stop
arriving between the stream's normal return and the `finally` still
applies the stop reconciliation to the completed content. -/
theorem stopGeneration_consumed_noop (s : ChatState) :
    stopGeneration (stopGeneration s) = stopGeneration s
    ∧ (s.abortController = false → stopGeneration s = s) := by
  constructor
  · by_cases h : s.abortController <;> simp [stopGeneration, h]
  · intro h
    simp [stopGeneration, h]

/-- Witness for the amended C5 theorem at a state whose controller has
already been consumed. -/
theorem stopGeneration_consumed_noop_witness :
    stopGeneration idleState = idleState :=
  (stopGeneration_consumed_noop idleState).2 rfl

/-- C6 counterexample: a send of the prompt `next` while a generation is
active only cancels the active generation: the resulting state has no
user message `next`, no fresh placeholder, no installed controller and
`isGenerating` is false — no new request is issued. -/
theorem sendMessage_while_generating_drops_prompt :
    sendMessage (genActiveState [userHi, aiPartial]) "next" none none 5 =
      { messages := [userHi, { aiPartial with content := aiPartial.content ++ stopMarker }]
        sessions := [llamaSession]
        currentSession := some llamaSession
        isGenerating := false
        selectedModel := "llama3"
        abortController := false } := by
  decide

/-- C6 amended: invoking `sendMessage` with a selected model and a
non-blank prompt while a generation is active cancels the active
generation and returns without issuing the new request, exactly as if
only `stopGeneration` had been called; the new prompt is dropped
(cancel-only, not cancel-then-send). -/
theorem sendMessage_while_generating_cancels_only (s : ChatState) (content : String)
    (apiCreated : Option Session) (apiSessions : Option (List Session)) (ts : Nat)
    (hg : s.isGenerating = true) (hm : s.selectedModel ≠ "")
    (hc : jsTrim content ≠ "") :
    sendMessage s content apiCreated apiSessions ts = stopGeneration s := by
  simp [sendMessage, hm, hc, hg]

/-- Witness for the amended C6 theorem at a concrete active state. -/
theorem sendMessage_while_generating_cancels_only_witness :
    sendMessage (genActiveState [userHi, aiPartial]) "next" none none 5 =
      stopGeneration (genActiveState [userHi, aiPartial]) :=
  sendMessage_while_generating_cancels_only (genActiveState [userHi, aiPartial])
    "next" none none 5 rfl (by decide) (by decide)

theorem loadSessions_preserves_generation (apiSessions : Option (List Session))
    (s : ChatState) :
    (loadSessions apiSessions s).abortController = s.abortController
    ∧ (loadSessions apiSessions s).isGenerating = s.isGenerating := by
  cases apiSessions with
  | none => simp [loadSessions]
  | some l =>
    simp only [loadSessions]
    cases hcs : s.currentSession with
    | none => simp
    | some cur =>
      by_cases h : (l.find? (fun t => t.id == cur.id)).isNone <;> simp [h]

/-- C7 amended: neither `switchToSession` nor `deleteSession` touches the
abort controller or the generating flag on any path, so a switch or
delete during an in-flight generation leaves the controller installed
and the decoder running against the replaced message list; the claimed
cancel-before-discard does not exist. -/
theorem switch_delete_preserve_generation (store : SessionStore) (s : ChatState)
    (sessionId : Nat) (apiSessions : Option (List Session)) :
    ((switchToSession store s sessionId).1.abortController = s.abortController
      ∧ (switchToSession store s sessionId).1.isGenerating = s.isGenerating)
    ∧ ((deleteSession apiSessions s sessionId).abortController = s.abortController
      ∧ (deleteSession apiSessions s sessionId).isGenerating = s.isGenerating) := by
  constructor
  · unfold switchToSession
    cases getSessionApi store sessionId <;> simp
  · unfold deleteSession
    have hl := loadSessions_preserves_generation apiSessions s
    cases hcs : s.currentSession with
    | none => simpa using hl
    | some cur =>
      by_cases h : cur.id == sessionId <;> simp [h, hl.1, hl.2]

/-- C7 counterexample: switching to an existing other session while a
generation is in flight succeeds and still leaves the abort controller
installed and the generating flag set, and deleting the current session
does the same — the in-flight generation is not cancelled by either. -/
theorem switchToSession_keeps_controller_counterexample :
    ((switchToSession { entries := [(llamaSession, [])] }
        (genActiveState [userHi, aiPartial]) 1).2 = true
      ∧ (switchToSession { entries := [(llamaSession, [])] }
          (genActiveState [userHi, aiPartial]) 1).1.abortController = true)
    ∧ (deleteSession (some []) (genActiveState [userHi, aiPartial]) 1).abortController
        = true := by
  decide

/-- C8: when no entry of the persistence store resolves the requested id,
`switchToSession` fails (the error is rethrown, second component false)
and the whole previous state — current session, selected model and
message list included — is returned untouched. -/
theorem switchToSession_missing_id_preserves_state (store : SessionStore)
    (s : ChatState) (sessionId : Nat)
    (habs : ∀ e ∈ store.entries, e.1.id ≠ sessionId) :
    (switchToSession store s sessionId).2 = false
    ∧ (switchToSession store s sessionId).1 = s := by
  have hfind : getSessionApi store sessionId = none := by
    unfold getSessionApi
    rw [List.find?_eq_none]
    intro e he
    simpa using habs e he
  simp [switchToSession, hfind]

/-- Witness for the C8 theorem: switching to the absent id 9. -/
theorem switchToSession_missing_id_preserves_state_witness :
    (switchToSession { entries := [(llamaSession, [])] } idleState 9).2 = false
    ∧ (switchToSession { entries := [(llamaSession, [])] } idleState 9).1 = idleState :=
  switchToSession_missing_id_preserves_state { entries := [(llamaSession, [])] }
    idleState 9 (by decide)

/-- C10: with no generation active, a send with no model selected or a
prompt that trims to empty returns before any effect: no session is
created, nothing is appended, no request is issued, and the state —
message list, current session and generating flag included — is exactly
the input state. -/
theorem sendMessage_blank_noop (s : ChatState) (content : String)
    (apiCreated : Option Session) (apiSessions : Option (List Session)) (ts : Nat)
    (_hg : s.isGenerating = false)
    (h : s.selectedModel = "" ∨ jsTrim content = "") :
    sendMessage s content apiCreated apiSessions ts = s := by
  unfold sendMessage
  rw [if_pos h]

/-- Witness for the C10 theorem at a whitespace-only prompt. -/
theorem sendMessage_blank_noop_witness :
    sendMessage idleState "   " none none 7 = idleState :=
  sendMessage_blank_noop idleState "   " none none 7 rfl (Or.inr (by decide))
